import Mathlib

/-!
# Verification of the LatinIME proximity-info state against its specification

Shallow embedding of `native/jni/src/proximity_info_state.cpp`.  C++ `int`
values are modelled as `ℤ`, `float` values as `ℚ` (with square roots taken in
`ℝ` only inside theorem statements), C++ vectors as `List`, and the sentinel
`NOT_AN_INDEX` of the key lookup as `Option`.  Functions of the utility module
`ProximityInfoStateUtils` and of `ProximityInfo` whose sources are not part of
this tree are modelled from the specification and marked as such in their doc
comments.
-/

namespace LatinIME

/-- Classification of a query code point against an input slot's proximity
code-point list, as returned by `ProximityInfoState::getMatchedProximityId`. -/
inductive ProximityType where
  | EQUIVALENT_CHAR
  | NEAR_PROXIMITY_CHAR
  | ADDITIONAL_PROXIMITY_CHAR
  | UNRELATED_CHAR
deriving DecidableEq, Repr

/-- The indices `1, 2, …, maxSize - 1` scanned by both loops of
`getMatchedProximityId` (the loop variable `j` starts at `1` and is guarded by
`j < MAX_PROXIMITY_CHARS_SIZE`). -/
def proximityScanIndices (maxSize : ℕ) : List ℕ :=
  (List.range (maxSize - 1)).map (· + 1)

/-- The second loop of `ProximityInfoState::getMatchedProximityId`: after the
delimiter, indices are scanned while the slot entry stays above the delimiter
code; an entry equal to the query code point or to its base-lowercase form
yields `ADDITIONAL_PROXIMITY_CHAR` together with the matching index. -/
def scanAdditionalList (C : ℕ → ℤ) (delim baseLowerC c : ℤ) :
    List ℕ → ProximityType × Option ℕ
  | [] => (ProximityType.UNRELATED_CHAR, none)
  | j :: rest =>
    if delim < C j then
      if C j = baseLowerC ∨ C j = c then
        (ProximityType.ADDITIONAL_PROXIMITY_CHAR, some j)
      else scanAdditionalList C delim baseLowerC c rest
    else (ProximityType.UNRELATED_CHAR, none)

/-- The first loop of `ProximityInfoState::getMatchedProximityId`: indices are
scanned while the slot entry stays above the delimiter code; a match yields
`NEAR_PROXIMITY_CHAR` with the matching index; when the scan stops on the
delimiter itself the additional list is scanned next. -/
def scanProximityList (C : ℕ → ℤ) (delim baseLowerC c : ℤ) :
    List ℕ → ProximityType × Option ℕ
  | [] => (ProximityType.UNRELATED_CHAR, none)
  | j :: rest =>
    if delim < C j then
      if C j = baseLowerC ∨ C j = c then
        (ProximityType.NEAR_PROXIMITY_CHAR, some j)
      else scanProximityList C delim baseLowerC c rest
    else if C j = delim then scanAdditionalList C delim baseLowerC c rest
    else (ProximityType.UNRELATED_CHAR, none)

/-- Shallow embedding of `ProximityInfoState::getMatchedProximityId`.
`C` gives the slot's proximity code points (the array returned by
`getProximityCodePointsAt`), `maxSize` is `MAX_PROXIMITY_CHARS_SIZE`, `delim`
is `ADDITIONAL_PROXIMITY_CHAR_DELIMITER_CODE`, `bl` is `toBaseLowerCase` and
`c` is the query code point.  The returned pair is the `ProximityType`
together with the value written through the `proximityIndex` out-parameter,
`none` when nothing is written. -/
def getMatchedProximityId (maxSize : ℕ) (C : ℕ → ℤ) (delim : ℤ) (bl : ℤ → ℤ)
    (c : ℤ) (checkProximityChars : Bool) : ProximityType × Option ℕ :=
  let baseLowerC := bl c
  let firstCodePoint := C 0
  if firstCodePoint = baseLowerC ∨ firstCodePoint = c then
    (ProximityType.EQUIVALENT_CHAR, none)
  else if !checkProximityChars then (ProximityType.UNRELATED_CHAR, none)
  else if bl firstCodePoint = baseLowerC then
    (ProximityType.NEAR_PROXIMITY_CHAR, none)
  else scanProximityList C delim baseLowerC c (proximityScanIndices maxSize)

/-- The specification's proximity-classification steps 2-7 (spec section 6),
written from the spec's words: `q' = baseLowerCase(q)`; `EQUIVALENT` when
`C[0] == q` or `C[0] == q'`; `UNRELATED` when proximity checking is off;
`NEAR` when `baseLowerCase(C[0]) == q'`; otherwise scan `j = 1..` while
`C[j] > DELIM` for a `NEAR` match, then, if a `DELIM` is encountered, scan the
additional list for an `ADDITIONAL` match; otherwise `UNRELATED`. -/
def specMatchedProximity (maxSize : ℕ) (C : ℕ → ℤ) (delim : ℤ) (bl : ℤ → ℤ)
    (q : ℤ) (checkProximity : Bool) : ProximityType × Option ℕ :=
  let q' := bl q
  if C 0 = q ∨ C 0 = q' then (ProximityType.EQUIVALENT_CHAR, none)
  else if !checkProximity then (ProximityType.UNRELATED_CHAR, none)
  else if bl (C 0) = q' then (ProximityType.NEAR_PROXIMITY_CHAR, none)
  else
    let idxs := proximityScanIndices maxSize
    match (idxs.takeWhile fun j => decide (delim < C j)).find?
        (fun j => decide (C j = q ∨ C j = q')) with
    | some j => (ProximityType.NEAR_PROXIMITY_CHAR, some j)
    | none =>
      match idxs.dropWhile (fun j => decide (delim < C j)) with
      | [] => (ProximityType.UNRELATED_CHAR, none)
      | j0 :: rest =>
        if C j0 = delim then
          match (rest.takeWhile fun j => decide (delim < C j)).find?
              (fun j => decide (C j = q ∨ C j = q')) with
          | some j => (ProximityType.ADDITIONAL_PROXIMITY_CHAR, some j)
          | none => (ProximityType.UNRELATED_CHAR, none)
        else (ProximityType.UNRELATED_CHAR, none)

/-- The entry assertion of `ProximityInfoState::initInputParams`,
`ASSERT(isGeometric || (inputSize < MAX_WORD_LENGTH))`, with the constant
`MAX_WORD_LENGTH` (defined in a header outside this tree) passed as an
argument. -/
def initInputParamsAssertion (isGeometric : Bool)
    (inputSize maxWordLength : ℤ) : Bool :=
  isGeometric || decide (inputSize < maxWordLength)

theorem scanAdditionalList_eq_spec (C : ℕ → ℤ) (delim b q : ℤ) (l : List ℕ) :
    scanAdditionalList C delim b q l =
      match (l.takeWhile fun j => decide (delim < C j)).find?
          (fun j => decide (C j = q ∨ C j = b)) with
      | some j => (ProximityType.ADDITIONAL_PROXIMITY_CHAR, some j)
      | none => (ProximityType.UNRELATED_CHAR, none) := by
  induction l with
  | nil => simp [scanAdditionalList]
  | cons j rest ih =>
    by_cases hd : delim < C j
    · rw [scanAdditionalList, if_pos hd,
        List.takeWhile_cons_of_pos (by simpa using hd)]
      by_cases hm : C j = b ∨ C j = q
      · rw [if_pos hm, List.find?_cons_of_pos _ (by simpa using Or.symm hm)]
      · rw [if_neg hm,
          List.find?_cons_of_neg _ (by simpa using fun h => hm (Or.symm h))]
        exact ih
    · rw [scanAdditionalList, if_neg hd,
        List.takeWhile_cons_of_neg (by simpa using hd)]
      rfl

theorem scanProximityList_eq_spec (C : ℕ → ℤ) (delim b q : ℤ) (l : List ℕ) :
    scanProximityList C delim b q l =
      match (l.takeWhile fun j => decide (delim < C j)).find?
          (fun j => decide (C j = q ∨ C j = b)) with
      | some j => (ProximityType.NEAR_PROXIMITY_CHAR, some j)
      | none =>
        match l.dropWhile (fun j => decide (delim < C j)) with
        | [] => (ProximityType.UNRELATED_CHAR, none)
        | j0 :: rest =>
          if C j0 = delim then
            match (rest.takeWhile fun j => decide (delim < C j)).find?
                (fun j => decide (C j = q ∨ C j = b)) with
            | some j => (ProximityType.ADDITIONAL_PROXIMITY_CHAR, some j)
            | none => (ProximityType.UNRELATED_CHAR, none)
          else (ProximityType.UNRELATED_CHAR, none) := by
  induction l with
  | nil => simp [scanProximityList]
  | cons j rest ih =>
    by_cases hd : delim < C j
    · rw [scanProximityList, if_pos hd,
        List.takeWhile_cons_of_pos (by simpa using hd),
        List.dropWhile_cons_of_pos (by simpa using hd)]
      by_cases hm : C j = b ∨ C j = q
      · rw [if_pos hm, List.find?_cons_of_pos _ (by simpa using Or.symm hm)]
      · rw [if_neg hm,
          List.find?_cons_of_neg _ (by simpa using fun h => hm (Or.symm h))]
        exact ih
    · rw [scanProximityList, if_neg hd,
        List.takeWhile_cons_of_neg (by simpa using hd),
        List.dropWhile_cons_of_neg (by simpa using hd)]
      simp only [List.find?_nil]
      by_cases hdl : C j = delim
      · rw [if_pos hdl, if_pos hdl]
        exact scanAdditionalList_eq_spec C delim b q rest
      · rw [if_neg hdl, if_neg hdl]

theorem mem_proximityScanIndices {maxSize j : ℕ}
    (h : j ∈ proximityScanIndices maxSize) : 0 < j ∧ j < maxSize := by
  simp only [proximityScanIndices, List.mem_map, List.mem_range] at h
  obtain ⟨k, hk, rfl⟩ := h
  omega

theorem scanAdditionalList_congr (C Cq : ℕ → ℤ) (delim b q : ℤ) (l : List ℕ)
    (h : ∀ j ∈ l, C j = Cq j) :
    scanAdditionalList C delim b q l = scanAdditionalList Cq delim b q l := by
  induction l with
  | nil => rfl
  | cons j rest ih =>
    have hj := h j (List.mem_cons_self j rest)
    simp only [scanAdditionalList, hj]
    rw [ih fun k hk => h k (List.mem_cons_of_mem j hk)]

theorem scanProximityList_congr (C Cq : ℕ → ℤ) (delim b q : ℤ) (l : List ℕ)
    (h : ∀ j ∈ l, C j = Cq j) :
    scanProximityList C delim b q l = scanProximityList Cq delim b q l := by
  induction l with
  | nil => rfl
  | cons j rest ih =>
    have hj := h j (List.mem_cons_self j rest)
    have htail : ∀ k ∈ rest, C k = Cq k := fun k hk =>
      h k (List.mem_cons_of_mem j hk)
    simp only [scanProximityList, hj]
    rw [ih htail, scanAdditionalList_congr C Cq delim b q rest htail]

/-- The external keyboard-layout service (`ProximityInfo`), by interface: only
the queries that `proximity_info_state.cpp` performs appear.  The code-point
to key-id map returns `none` where the C++ query returns the `NOT_AN_INDEX`
sentinel. -/
structure ProximityInfo where
  hasTouchPositionCorrectionData : Bool
  mostCommonKeyWidthSquare : ℤ
  mostCommonKeyWidth : ℤ
  keyCount : ℕ
  cellHeight : ℤ
  cellWidth : ℤ
  gridWidth : ℤ
  gridHeight : ℤ
  keyIndexOf : ℤ → Option ℕ
  keyCenterX : ℕ → ℤ
  keyCenterY : ℕ → ℤ

/-- One raw touch stream: the parallel coordinate and time arrays passed to
`initInputParams`. -/
structure RawInput where
  xs : List ℤ
  ys : List ℤ
  ts : List ℤ
deriving DecidableEq

/-- One sampled point.  The five parallel sampled arrays (`mSampledInputXs`,
`mSampledInputYs`, `mSampledTimes`, `mSampledInputIndice`,
`mSampledLengthCache`) hold its x, y, time, source index and cumulative
length; a list of `Sample` records models them together, so list equality is
entrywise equality of all five arrays. -/
structure Sample where
  x : ℤ
  y : ℤ
  t : ℤ
  srcIdx : ℕ
  cumLen : ℚ
deriving DecidableEq

instance : Inhabited Sample := ⟨⟨0, 0, 0, 0, 0⟩⟩

/-- The fields of `ProximityInfoState` read by the verified queries. -/
structure PIState where
  info : ProximityInfo
  storedRaw : RawInput
  sampled : List Sample
  gridWidth : ℤ
  gridHeight : ℤ
  cellWidth : ℤ
  cellHeight : ℤ
  maxPointToKeyLength : ℚ
  distCache : List ℚ
  charProbabilities : List (List (ℕ × ℚ))
  mostProbableString : List ℤ
  mostProbableStringProbability : ℚ

/-- Modelled from the spec: the constant `MAX_POINT_TO_KEY_LENGTH` is defined
in a header outside this tree; the spec only requires a large-value sentinel
for "key not on keyboard". -/
def MAX_POINT_TO_KEY_LENGTH : ℚ := 10000000

/-- Modelled from the spec:
`ProximityInfoStateUtils::checkAndReturnIsContinuationPossible` is not under
`src/`; per spec section 4.3, continuation is possible when the new raw
stream is a strict extension of the previously stored one — same initial
prefix of (x, y, t) triples, length strictly greater. -/
def checkContinuation (prev curr : RawInput) : Bool :=
  decide (prev.xs.length < curr.xs.length) &&
    decide (curr.xs.take prev.xs.length = prev.xs) &&
    decide (curr.ys.take prev.xs.length = prev.ys) &&
    decide (curr.ts.take prev.xs.length = prev.ts)

/-- Modelled from the spec: the state of a freshly constructed
`ProximityInfoState` (the constructor lives in the header, outside this
tree) — no stored raw input, no sampled data, an empty most-probable string
and zero probability. -/
def initialState (info : ProximityInfo) : PIState where
  info := info
  storedRaw := ⟨[], [], []⟩
  sampled := []
  gridWidth := 0
  gridHeight := 0
  cellWidth := 0
  cellHeight := 0
  maxPointToKeyLength := 0
  distCache := []
  charProbabilities := []
  mostProbableString := []
  mostProbableStringProbability := 0

/-- The guard of the continuation branch of `initInputParams`:
`mIsContinuationPossible && mSampledInputIndice.size() > 1`. -/
def contTaken (s : PIState) (raw : RawInput) : Bool :=
  checkContinuation s.storedRaw raw && decide (1 < s.sampled.length)

/-- The resume point `pushTouchPointStartIndex` of `initInputParams`.
Modelled from the spec for the continuation branch
(`ProximityInfoStateUtils::trimLastTwoTouchPoints` is not under `src/`):
spec section 4.3 resumes emission from `SrcIdx[M-2] + 1` after the last two
sampled points are dropped; a fresh run starts from raw index 0. -/
def pushStartIndex (s : PIState) (raw : RawInput) : ℕ :=
  if contTaken s raw then
    (s.sampled.getD (s.sampled.length - 2) default).srcIdx + 1
  else 0

/-- The sampled entries `initInputParams` keeps: in the continuation branch
the previous sampled arrays with their last two entries popped
(`trimLastTwoTouchPoints`, modelled from the spec), in the fresh branch
nothing (all sampled arrays are cleared). -/
def keptSamples (s : PIState) (raw : RawInput) : List Sample :=
  if contTaken s raw then s.sampled.dropLast.dropLast else []

/-- The sampled arrays after `initInputParams`: the kept entries followed by
what the resampler emits from the resume point on.  `emit` stands for
`ProximityInfoStateUtils::updateTouchPoints` (not under `src/`), modelled
from the spec as a deterministic resampler that appends the samples it emits
for the given raw input from the given source index on. -/
def newSampled (emit : RawInput → ℕ → List Sample) (s : PIState)
    (raw : RawInput) : List Sample :=
  keptSamples s raw ++ emit raw (pushStartIndex s raw)

/-- The per-sample key-probability maps after `initInputParams`: recomputed by
the aligner when the run is geometric and produced samples, kept from the
continuation branch or cleared otherwise.  `align` stands for
`ProximityInfoStateUtils::updateAlignPointProbabilities` (not under `src/`),
modelled from the spec as a deterministic function of the layout and the
sampled polyline. -/
def newCharProbabilities (emit : RawInput → ℕ → List Sample)
    (align : ProximityInfo → List Sample → List (List (ℕ × ℚ)))
    (s : PIState) (info : ProximityInfo) (raw : RawInput)
    (isGeometric : Bool) : List (List (ℕ × ℚ)) :=
  if decide (0 < (newSampled emit s raw).length) && isGeometric then
    align info (newSampled emit s raw)
  else if contTaken s raw then s.charProbabilities else []

/-- The most-probable string and its aggregate probability after
`initInputParams`: the probability field is first zeroed, then both are
recomputed iff the run is geometric and produced samples; otherwise the
stored string is left untouched.  `mpsOf` stands for
`ProximityInfoStateUtils::getMostProbableString` (not under `src/`), modelled
from the spec as a deterministic function of the layout and the per-sample
probability maps. -/
def newMostProbablePair (emit : RawInput → ℕ → List Sample)
    (align : ProximityInfo → List Sample → List (List (ℕ × ℚ)))
    (mpsOf : ProximityInfo → List (List (ℕ × ℚ)) → List ℤ × ℚ)
    (s : PIState) (info : ProximityInfo) (raw : RawInput)
    (isGeometric : Bool) : List ℤ × ℚ :=
  if decide (0 < (newSampled emit s raw).length) && isGeometric then
    mpsOf info (newCharProbabilities emit align s info raw isGeometric)
  else (s.mostProbableString, 0)

/-- Shallow embedding of `ProximityInfoState::initInputParams`, restricted to
the state the verified queries read.  The external utility functions enter as
the deterministic parameters `emit`, `align`, `mpsOf` and `distFill`
(`distFill` stands for `ProximityInfoStateUtils::initGeometricDistanceInfos`,
not under `src/`).  The grid fields copy the layout's dimensions exactly as
the source does on its lines 46-47. -/
def initInputParams (emit : RawInput → ℕ → List Sample)
    (align : ProximityInfo → List Sample → List (List (ℕ × ℚ)))
    (mpsOf : ProximityInfo → List (List (ℕ × ℚ)) → List ℤ × ℚ)
    (distFill : ProximityInfo → List Sample → ℕ → List ℚ)
    (s : PIState) (info : ProximityInfo) (raw : RawInput)
    (maxPTKL : ℚ) (isGeometric : Bool) : PIState where
  info := info
  storedRaw := raw
  sampled := newSampled emit s raw
  gridHeight := info.gridWidth
  gridWidth := info.gridHeight
  cellWidth := info.cellWidth
  cellHeight := info.cellHeight
  maxPointToKeyLength := maxPTKL
  distCache := distFill info (newSampled emit s raw) (keptSamples s raw).length
  charProbabilities := newCharProbabilities emit align s info raw isGeometric
  mostProbableString :=
    (newMostProbablePair emit align mpsOf s info raw isGeometric).1
  mostProbableStringProbability :=
    (newMostProbablePair emit align mpsOf s info raw isGeometric).2

/-- Shallow embedding of `ProximityInfoState::getPointToKeyLength`.
`skippable` stands for `isSkippableCodePoint` (defined in the header, outside
this tree). -/
def getPointToKeyLength (skippable : ℤ → Bool) (s : PIState)
    (inputIndex : ℕ) (codePoint : ℤ) (scale : ℚ) : ℚ :=
  match s.info.keyIndexOf codePoint with
  | some keyId =>
    min (s.distCache.getD (inputIndex * s.info.keyCount + keyId) 0 * scale)
      s.maxPointToKeyLength
  | none =>
    if skippable codePoint then 0 else MAX_POINT_TO_KEY_LENGTH

/-- Modelled from the spec: `initGeometricDistanceInfos` (outside `src/`)
fills the dense distance cache.  Spec section 4.8 has the facade return
`min(√Dist2 · scale, max)` while the source multiplies the cache entry
directly and describes the cached values as lengths, so the cache entry for
(sample `i`, key `k`) is the square root of the squared distance
`Dist2[i][k]`; `Dist2` is therefore the square of the cache entry. -/
def Dist2 (s : PIState) (inputIndex keyId : ℕ) : ℚ :=
  (s.distCache.getD (inputIndex * s.info.keyCount + keyId) 0) ^ 2

/-- Shallow embedding of `ProximityInfoState::getProbability`: the per-sample
key-probability map (`mCharProbabilities[index]`) is an association list. -/
def getProbability (s : PIState) (index keyIndex : ℕ) : ℚ :=
  match (s.charProbabilities.getD index []).lookup keyIndex with
  | some p => p
  | none => MAX_POINT_TO_KEY_LENGTH

/-- Shallow embedding of `ProximityInfoState::getMostProbableString`: copies
the stored code points into the caller's buffer and returns the stored
aggregate probability. -/
def getMostProbableString (s : PIState) : List ℤ × ℚ :=
  (s.mostProbableString, s.mostProbableStringProbability)

/-- Shallow embedding of `ProximityInfoState::getLineToKeyDistance`.
`segDist` stands for
`ProximityInfoUtils::pointToLineSegSquaredDistanceFloat` (outside this tree);
the inner array reads are modelled fallibly, so a `none` result would mean an
out-of-bounds access. -/
def getLineToKeyDistance (segDist : ℤ → ℤ → ℤ → ℤ → ℤ → ℤ → Bool → ℚ)
    (s : PIState) (fromIdx toIdx : ℤ) (keyId : ℕ) (ext : Bool) : Option ℚ :=
  if fromIdx < 0 ∨ (s.sampled.length : ℤ) - 1 < fromIdx then some 0
  else if toIdx < 0 ∨ (s.sampled.length : ℤ) - 1 < toIdx then some 0
  else
    match s.sampled.get? fromIdx.toNat, s.sampled.get? toIdx.toNat with
    | some p0, some p1 =>
      some (segDist (s.info.keyCenterX keyId) (s.info.keyCenterY keyId)
        p0.x p0.y p1.x p1.y ext)
    | _, _ => none

/-- C1: `getMatchedProximityId` classifies a query code point against the
slot's code-point list exactly as the spec's steps 2-7 prescribe (`EQUIVALENT`
on a first-entry match, `UNRELATED` when proximity checking is off, `NEAR` on
a base-form match of the first entry or a match in the primary list before the
`DELIM` sentinel — returning that index through the out-parameter —,
`ADDITIONAL` on a match after the sentinel, `UNRELATED` otherwise), and the
scan reads no slot entry at an index at or beyond `MAX_PROXIMITY_CHARS_SIZE`:
the result only depends on the entries at index `0` and at indices below
`maxSize`. -/
theorem getMatchedProximityId_eq_spec (maxSize : ℕ) (C Cq : ℕ → ℤ) (delim : ℤ)
    (bl : ℤ → ℤ) (q : ℤ) (checkProximity : Bool)
    (h0 : C 0 = Cq 0) (hj : ∀ j, 0 < j → j < maxSize → C j = Cq j) :
    getMatchedProximityId maxSize C delim bl q checkProximity =
      specMatchedProximity maxSize Cq delim bl q checkProximity := by
  have hscan : scanProximityList C delim (bl q) q (proximityScanIndices maxSize)
      = scanProximityList Cq delim (bl q) q (proximityScanIndices maxSize) :=
    scanProximityList_congr C Cq delim (bl q) q (proximityScanIndices maxSize)
      fun j hjmem => hj j (mem_proximityScanIndices hjmem).1
        (mem_proximityScanIndices hjmem).2
  unfold getMatchedProximityId specMatchedProximity
  simp only [h0]
  cases checkProximity <;>
    by_cases e1 : Cq 0 = bl q <;> by_cases e2 : Cq 0 = q <;>
      by_cases e3 : bl (Cq 0) = bl q <;>
        simp [e1, e2, e3, hscan, scanProximityList_eq_spec]

/-- A concrete tap-mode proximity slot: the user typed code point 97, the
primary proximity list holds 115, the delimiter code 2 follows, and 122 is an
additional proximity character. -/
def exampleSlotCodePoints : ℕ → ℤ := fun j =>
  if j = 0 then 97 else if j = 1 then 115 else if j = 2 then 2
  else if j = 3 then 122 else 0

theorem getMatchedProximityId_eq_spec_witness :
    getMatchedProximityId 16 exampleSlotCodePoints 2 id 115 true =
        specMatchedProximity 16 exampleSlotCodePoints 2 id 115 true ∧
      specMatchedProximity 16 exampleSlotCodePoints 2 id 115 true =
        (ProximityType.NEAR_PROXIMITY_CHAR, some 1) :=
  ⟨getMatchedProximityId_eq_spec 16 exampleSlotCodePoints exampleSlotCodePoints
      2 id 115 true rfl (fun _ _ _ => rfl),
    by decide⟩

theorem dropLast_dropLast_eq_take {α : Type} (l : List α) :
    l.dropLast.dropLast = l.take (l.length - 2) := by
  rw [List.dropLast_eq_take, List.dropLast_eq_take, List.length_take,
    List.take_take]
  congr 1
  omega

theorem checkContinuation_self (r : RawInput) : checkContinuation r r = false := by
  simp [checkContinuation]

/-- C6: `initInputParams` stores the layout's grid width in the state's
grid-height field and the layout's grid height in the state's grid-width
field — for every init invocation, the two grid-dimension fields hold the
layout's grid dimensions swapped. -/
theorem initInputParams_swaps_grid (emit : RawInput → ℕ → List Sample)
    (align : ProximityInfo → List Sample → List (List (ℕ × ℚ)))
    (mpsOf : ProximityInfo → List (List (ℕ × ℚ)) → List ℤ × ℚ)
    (distFill : ProximityInfo → List Sample → ℕ → List ℚ)
    (s : PIState) (info : ProximityInfo) (raw : RawInput)
    (maxPTKL : ℚ) (isGeometric : Bool) :
    (initInputParams emit align mpsOf distFill s info raw maxPTKL
        isGeometric).gridHeight = info.gridWidth ∧
      (initInputParams emit align mpsOf distFill s info raw maxPTKL
        isGeometric).gridWidth = info.gridHeight :=
  ⟨rfl, rfl⟩

/-- C2: when init runs in continuation mode (the new raw input strictly
extends the stored one and the previous sampled size exceeds 1), the first
`M_prev - 2` entries of the sampled parallel arrays are preserved unchanged,
and the new sampled arrays are exactly that preserved prefix (the last two
previous entries dropped) followed by the samples the resampler emits from
the resume point `SrcIdx[M_prev - 2] + 1` — new entries are only appended. -/
theorem initInputParams_continuation_preserves
    (emit : RawInput → ℕ → List Sample)
    (align : ProximityInfo → List Sample → List (List (ℕ × ℚ)))
    (mpsOf : ProximityInfo → List (List (ℕ × ℚ)) → List ℤ × ℚ)
    (distFill : ProximityInfo → List Sample → ℕ → List ℚ)
    (s : PIState) (info : ProximityInfo) (raw : RawInput)
    (maxPTKL : ℚ) (isGeometric : Bool)
    (hc : checkContinuation s.storedRaw raw = true)
    (hlen : 1 < s.sampled.length) :
    (initInputParams emit align mpsOf distFill s info raw maxPTKL
          isGeometric).sampled.take (s.sampled.length - 2)
        = s.sampled.take (s.sampled.length - 2) ∧
      (initInputParams emit align mpsOf distFill s info raw maxPTKL
          isGeometric).sampled
        = s.sampled.take (s.sampled.length - 2) ++
            emit raw
              ((s.sampled.getD (s.sampled.length - 2) default).srcIdx + 1) := by
  have hct : contTaken s raw = true := by
    simp [contTaken, hc, hlen]
  have hkept : keptSamples s raw = s.sampled.take (s.sampled.length - 2) := by
    rw [keptSamples, if_pos hct, dropLast_dropLast_eq_take]
  have hpush : pushStartIndex s raw
      = (s.sampled.getD (s.sampled.length - 2) default).srcIdx + 1 := by
    rw [pushStartIndex, if_pos hct]
  have hsampled : (initInputParams emit align mpsOf distFill s info raw maxPTKL
      isGeometric).sampled
      = s.sampled.take (s.sampled.length - 2) ++
          emit raw
            ((s.sampled.getD (s.sampled.length - 2) default).srcIdx + 1) := by
    show newSampled emit s raw = _
    rw [newSampled, hkept, hpush]
  refine ⟨?_, hsampled⟩
  rw [hsampled, List.take_left']
  rw [List.length_take]
  omega

/-- C4: calling `initInputParams` twice in succession with identical inputs
reproduces the first call: identical raw input is not a strict extension of
itself, so the second call runs fresh, and — the first call having run fresh
as well, which always holds on a freshly constructed state — its sampled
parallel arrays, most-probable string and aggregate probability coincide with
the first call's. -/
theorem initInputParams_second_call_reproduces
    (emit : RawInput → ℕ → List Sample)
    (align : ProximityInfo → List Sample → List (List (ℕ × ℚ)))
    (mpsOf : ProximityInfo → List (List (ℕ × ℚ)) → List ℤ × ℚ)
    (distFill : ProximityInfo → List Sample → ℕ → List ℚ)
    (s : PIState) (info : ProximityInfo) (raw : RawInput)
    (maxPTKL : ℚ) (isGeometric : Bool)
    (hfresh : contTaken s raw = false) :
    (initInputParams emit align mpsOf distFill
          (initInputParams emit align mpsOf distFill s info raw maxPTKL
            isGeometric)
          info raw maxPTKL isGeometric).sampled
        = (initInputParams emit align mpsOf distFill s info raw maxPTKL
            isGeometric).sampled ∧
      (initInputParams emit align mpsOf distFill
            (initInputParams emit align mpsOf distFill s info raw maxPTKL
              isGeometric)
            info raw maxPTKL isGeometric).mostProbableString
        = (initInputParams emit align mpsOf distFill s info raw maxPTKL
            isGeometric).mostProbableString ∧
      (initInputParams emit align mpsOf distFill
            (initInputParams emit align mpsOf distFill s info raw maxPTKL
              isGeometric)
            info raw maxPTKL
            isGeometric).mostProbableStringProbability
        = (initInputParams emit align mpsOf distFill s info raw maxPTKL
            isGeometric).mostProbableStringProbability := by
  set s1 := initInputParams emit align mpsOf distFill s info raw maxPTKL
    isGeometric with hs1
  have hsamp0 : newSampled emit s raw = emit raw 0 := by
    rw [newSampled, keptSamples, if_neg (by simp [hfresh]),
      pushStartIndex, if_neg (by simp [hfresh])]
    rfl
  have hstored : s1.storedRaw = raw := by rw [hs1]; rfl
  have hfresh1 : contTaken s1 raw = false := by
    rw [contTaken, hstored, checkContinuation_self]
    rfl
  have hsamp2 : newSampled emit s1 raw = emit raw 0 := by
    rw [newSampled, keptSamples, if_neg (by simp [hfresh1]),
      pushStartIndex, if_neg (by simp [hfresh1])]
    rfl
  have hns : newSampled emit s1 raw = newSampled emit s raw := by
    rw [hsamp2, hsamp0]
  have hcp : newCharProbabilities emit align s1 info raw isGeometric
      = newCharProbabilities emit align s info raw isGeometric := by
    rw [newCharProbabilities, newCharProbabilities, hns, hfresh1, hfresh]
    rfl
  have hms : s1.mostProbableString
      = (newMostProbablePair emit align mpsOf s info raw isGeometric).1 := by
    rw [hs1]; rfl
  have hmp : newMostProbablePair emit align mpsOf s1 info raw isGeometric
      = newMostProbablePair emit align mpsOf s info raw isGeometric := by
    rw [newMostProbablePair, newMostProbablePair, hns, hcp]
    by_cases hg : (decide (0 < (newSampled emit s raw).length) && isGeometric)
        = true
    · rw [if_pos hg, if_pos hg]
    · rw [if_neg hg, if_neg hg, hms, newMostProbablePair, if_neg hg]
  refine ⟨?_, ?_, ?_⟩
  · show newSampled emit s1 raw = s1.sampled
    rw [hns, hs1]; rfl
  · show (newMostProbablePair emit align mpsOf s1 info raw isGeometric).1
      = s1.mostProbableString
    rw [hmp, hs1]; rfl
  · show (newMostProbablePair emit align mpsOf s1 info raw isGeometric).2
      = s1.mostProbableStringProbability
    rw [hmp, hs1]; rfl

/-- C9: init on a fresh state with zero raw input points produces a sampled
size of 0, and `getMostProbableString` then yields the empty code-point
string with aggregate probability 0.  The hypothesis on `emit` is the spec's
resampler bound `M ≤ N`. -/
theorem initInputParams_empty_input
    (emit : RawInput → ℕ → List Sample)
    (align : ProximityInfo → List Sample → List (List (ℕ × ℚ)))
    (mpsOf : ProximityInfo → List (List (ℕ × ℚ)) → List ℤ × ℚ)
    (distFill : ProximityInfo → List Sample → ℕ → List ℚ)
    (info : ProximityInfo) (raw : RawInput) (maxPTKL : ℚ) (isGeometric : Bool)
    (hN : raw.xs = [])
    (hemit : ∀ r k, (emit r k).length ≤ r.xs.length) :
    (initInputParams emit align mpsOf distFill (initialState info) info raw
        maxPTKL isGeometric).sampled = [] ∧
      getMostProbableString
        (initInputParams emit align mpsOf distFill (initialState info) info
          raw maxPTKL isGeometric) = ([], 0) := by
  have hct : contTaken (initialState info) raw = false := by
    simp [contTaken, initialState]
  have hemit0 : emit raw (pushStartIndex (initialState info) raw) = [] := by
    have := hemit raw (pushStartIndex (initialState info) raw)
    rw [hN] at this
    exact List.length_eq_zero.mp (Nat.le_zero.mp this)
  have hsamp : newSampled emit (initialState info) raw = [] := by
    rw [newSampled, keptSamples, if_neg (by simp [hct]), hemit0]
    rfl
  have hcond : (decide
      (0 < (newSampled emit (initialState info) raw).length) && isGeometric)
      = false := by
    rw [hsamp]
    rfl
  refine ⟨hsamp, ?_⟩
  show ((newMostProbablePair emit align mpsOf (initialState info) info raw
      isGeometric).1,
    (newMostProbablePair emit align mpsOf (initialState info) info raw
      isGeometric).2) = ([], 0)
  rw [newMostProbablePair, if_neg (by simp [hcond])]
  rfl

/-- C5 counterexample: the claim says every tap-mode call with
`inputSize ≤ MAX_WORD_LENGTH` passes the entry assertion, but the source
checks `inputSize < MAX_WORD_LENGTH` strictly, so a tap-mode call with
`inputSize` equal to `MAX_WORD_LENGTH` (here both 48) is rejected. -/
theorem initInputParamsAssertion_boundary_cex :
    (48 : ℤ) ≤ 48 ∧ initInputParamsAssertion false 48 48 = false := by decide

/-- C5 (amended): the tap-mode entry check of `initInputParams` passes exactly
when `inputSize < MAX_WORD_LENGTH` (strictly), and geometric-mode calls are
never rejected by it, whatever the input size. -/
theorem initInputParamsAssertion_iff (inputSize maxWordLength : ℤ) :
    (initInputParamsAssertion false inputSize maxWordLength = true ↔
        inputSize < maxWordLength) ∧
      initInputParamsAssertion true inputSize maxWordLength = true := by
  simp [initInputParamsAssertion]

/-- C3: `getPointToKeyLength` returns `min(√Dist2 · scale, maxPointToKeyLength)`
when the code point maps to a key (the distance cache holding nonnegative
lengths, as after init), `0` when it has no key but is skippable, and the
sentinel `MAX_POINT_TO_KEY_LENGTH` when it has no key and is not skippable. -/
theorem getPointToKeyLength_eq_spec (skippable : ℤ → Bool) (s : PIState)
    (inputIndex : ℕ) (codePoint : ℤ) (scale : ℚ) (hscale : 0 ≤ scale)
    (hcache : ∀ j, 0 ≤ s.distCache.getD j 0) :
    (∀ keyId, s.info.keyIndexOf codePoint = some keyId →
        ((getPointToKeyLength skippable s inputIndex codePoint scale : ℚ) : ℝ)
          = min (Real.sqrt ((Dist2 s inputIndex keyId : ℚ) : ℝ) * (scale : ℝ))
              ((s.maxPointToKeyLength : ℚ) : ℝ)) ∧
      (s.info.keyIndexOf codePoint = none → skippable codePoint = true →
        getPointToKeyLength skippable s inputIndex codePoint scale = 0) ∧
      (s.info.keyIndexOf codePoint = none → skippable codePoint = false →
        getPointToKeyLength skippable s inputIndex codePoint scale
          = MAX_POINT_TO_KEY_LENGTH) := by
  refine ⟨?_, ?_, ?_⟩
  · intro keyId hk
    have hc : (0 : ℝ) ≤
        ((s.distCache.getD (inputIndex * s.info.keyCount + keyId) 0 : ℚ) : ℝ) := by
      exact_mod_cast hcache _
    simp only [getPointToKeyLength, hk, Dist2]
    push_cast
    rw [Real.sqrt_sq hc]
  · intro hk hsk
    simp [getPointToKeyLength, hk, hsk]
  · intro hk hsk
    simp [getPointToKeyLength, hk, hsk]

/-- C8: for a fixed state whose distance cache holds nonnegative lengths (as
after init), `getPointToKeyLength` is monotone non-decreasing in the scale
argument. -/
theorem getPointToKeyLength_mono_scale (skippable : ℤ → Bool) (s : PIState)
    (inputIndex : ℕ) (codePoint : ℤ) (a b : ℚ) (ha : 0 ≤ a) (hab : a ≤ b)
    (hcache : ∀ j, 0 ≤ s.distCache.getD j 0) :
    getPointToKeyLength skippable s inputIndex codePoint a
      ≤ getPointToKeyLength skippable s inputIndex codePoint b := by
  unfold getPointToKeyLength
  cases hk : s.info.keyIndexOf codePoint with
  | some keyId =>
    exact min_le_min (mul_le_mul_of_nonneg_left hab (hcache _)) le_rfl
  | none => exact le_rfl

/-- C7: `getProbability` returns the stored probability when the per-sample
map has an entry for the key id, and the sentinel `MAX_POINT_TO_KEY_LENGTH`
when it has none. -/
theorem getProbability_eq_spec (s : PIState) (index keyIndex : ℕ) :
    (∀ p, (s.charProbabilities.getD index []).lookup keyIndex = some p →
        getProbability s index keyIndex = p) ∧
      ((s.charProbabilities.getD index []).lookup keyIndex = none →
        getProbability s index keyIndex = MAX_POINT_TO_KEY_LENGTH) := by
  constructor
  · intro p hp
    simp only [getProbability, hp]
  · intro hp
    simp only [getProbability, hp]

/-- C10: `getLineToKeyDistance` returns distance 0 whenever `from` or `to`
falls outside the sampled index range `[0, M-1]` — not a large penalty
sentinel — and no inner array read is out of bounds: the result is always
`some`. -/
theorem getLineToKeyDistance_out_of_range
    (segDist : ℤ → ℤ → ℤ → ℤ → ℤ → ℤ → Bool → ℚ) (s : PIState)
    (fromIdx toIdx : ℤ) (keyId : ℕ) (ext : Bool) :
    ((fromIdx < 0 ∨ (s.sampled.length : ℤ) - 1 < fromIdx ∨ toIdx < 0 ∨
        (s.sampled.length : ℤ) - 1 < toIdx) →
      getLineToKeyDistance segDist s fromIdx toIdx keyId ext = some 0) ∧
      (getLineToKeyDistance segDist s fromIdx toIdx keyId ext).isSome
        = true := by
  by_cases h1 : fromIdx < 0 ∨ (s.sampled.length : ℤ) - 1 < fromIdx
  · constructor
    · intro _
      simp only [getLineToKeyDistance, if_pos h1]
    · simp only [getLineToKeyDistance, if_pos h1, Option.isSome_some]
  · by_cases h2 : toIdx < 0 ∨ (s.sampled.length : ℤ) - 1 < toIdx
    · constructor
      · intro _
        simp only [getLineToKeyDistance, if_neg h1, if_pos h2]
      · simp only [getLineToKeyDistance, if_neg h1, if_pos h2,
          Option.isSome_some]
    · push_neg at h1 h2
      have hf : fromIdx.toNat < s.sampled.length := by omega
      have ht : toIdx.toNat < s.sampled.length := by omega
      constructor
      · intro h
        rcases h with h | h | h | h <;> omega
      · simp only [getLineToKeyDistance,
          if_neg (by push_neg; exact h1 : ¬(fromIdx < 0 ∨
            (s.sampled.length : ℤ) - 1 < fromIdx)),
          if_neg (by push_neg; exact h2 : ¬(toIdx < 0 ∨
            (s.sampled.length : ℤ) - 1 < toIdx)),
          List.get?_eq_get hf, List.get?_eq_get ht, Option.isSome_some]

/-- A one-key layout: code point 97 sits on key 0. -/
def exampleInfo : ProximityInfo where
  hasTouchPositionCorrectionData := false
  mostCommonKeyWidthSquare := 0
  mostCommonKeyWidth := 0
  keyCount := 1
  cellHeight := 0
  cellWidth := 0
  gridWidth := 3
  gridHeight := 5
  keyIndexOf := fun cp => if cp = 97 then some 0 else none
  keyCenterX := fun _ => 0
  keyCenterY := fun _ => 0

/-- A concrete one-sample state over `exampleInfo`, with distance-cache entry
3 and key-0 probability 1/2 at sample 0. -/
def exampleState : PIState where
  info := exampleInfo
  storedRaw := ⟨[], [], []⟩
  sampled := [⟨0, 0, 0, 0, 0⟩]
  gridWidth := 0
  gridHeight := 0
  cellWidth := 0
  cellHeight := 0
  maxPointToKeyLength := 100
  distCache := [3]
  charProbabilities := [[(0, 1/2)]]
  mostProbableString := []
  mostProbableStringProbability := 0

theorem exampleState_cache_nonneg : ∀ j, 0 ≤ exampleState.distCache.getD j 0 := by
  intro j
  cases j with
  | zero => norm_num [exampleState]
  | succ n => simp [exampleState]

theorem getPointToKeyLength_eq_spec_witness :
    ((getPointToKeyLength (fun _ => false) exampleState 0 97 1 : ℚ) : ℝ)
      = min (Real.sqrt ((Dist2 exampleState 0 0 : ℚ) : ℝ) * ((1 : ℚ) : ℝ))
          ((exampleState.maxPointToKeyLength : ℚ) : ℝ) :=
  (getPointToKeyLength_eq_spec (fun _ => false) exampleState 0 97 1
      (by norm_num) exampleState_cache_nonneg).1 0 (by decide)

theorem getPointToKeyLength_mono_scale_witness :
    getPointToKeyLength (fun _ => false) exampleState 0 97 1
      ≤ getPointToKeyLength (fun _ => false) exampleState 0 97 2 :=
  getPointToKeyLength_mono_scale (fun _ => false) exampleState 0 97 1 2
    (by norm_num) (by norm_num) exampleState_cache_nonneg

theorem getProbability_eq_spec_witness :
    getProbability exampleState 0 0 = 1 / 2 ∧
      getProbability exampleState 0 7 = MAX_POINT_TO_KEY_LENGTH :=
  ⟨(getProbability_eq_spec exampleState 0 0).1 (1 / 2) rfl,
    (getProbability_eq_spec exampleState 0 7).2 rfl⟩

theorem getLineToKeyDistance_out_of_range_witness :
    getLineToKeyDistance (fun _ _ _ _ _ _ _ => 0) exampleState 5 0 0 false
      = some 0 :=
  (getLineToKeyDistance_out_of_range (fun _ _ _ _ _ _ _ => 0) exampleState
      5 0 0 false).1 (Or.inr (Or.inl (by norm_num [exampleState])))

/-- A three-sample state whose stored raw input is the matching three-point
stream, for exercising the continuation branch. -/
def exampleContState : PIState where
  info := exampleInfo
  storedRaw := ⟨[0, 9, 20], [0, 1, 2], [0, 5, 9]⟩
  sampled := [⟨0, 0, 0, 0, 0⟩, ⟨9, 1, 5, 1, 0⟩, ⟨20, 2, 9, 2, 0⟩]
  gridWidth := 0
  gridHeight := 0
  cellWidth := 0
  cellHeight := 0
  maxPointToKeyLength := 0
  distCache := []
  charProbabilities := []
  mostProbableString := []
  mostProbableStringProbability := 0

/-- A strict four-point extension of `exampleContState`'s stored stream. -/
def exampleRawExt : RawInput := ⟨[0, 9, 20, 31], [0, 1, 2, 3], [0, 5, 9, 14]⟩

/-- A concrete resampler used by the continuation witness. -/
def exampleEmit : RawInput → ℕ → List Sample := fun _ _ => [⟨7, 7, 7, 3, 0⟩]

theorem initInputParams_continuation_preserves_witness :
    (initInputParams exampleEmit (fun _ _ => []) (fun _ _ => ([], 0))
          (fun _ _ _ => []) exampleContState exampleInfo exampleRawExt 0
          true).sampled.take (exampleContState.sampled.length - 2)
        = exampleContState.sampled.take (exampleContState.sampled.length - 2)
      ∧ (initInputParams exampleEmit (fun _ _ => []) (fun _ _ => ([], 0))
          (fun _ _ _ => []) exampleContState exampleInfo exampleRawExt 0
          true).sampled
        = exampleContState.sampled.take (exampleContState.sampled.length - 2)
            ++ exampleEmit exampleRawExt
                ((exampleContState.sampled.getD
                  (exampleContState.sampled.length - 2) default).srcIdx + 1) :=
  initInputParams_continuation_preserves exampleEmit (fun _ _ => [])
    (fun _ _ => ([], 0)) (fun _ _ _ => []) exampleContState exampleInfo
    exampleRawExt 0 true (by decide) (by decide)

theorem initInputParams_second_call_reproduces_witness :
    (initInputParams exampleEmit (fun _ _ => []) (fun _ _ => ([], 0))
          (fun _ _ _ => [])
          (initInputParams exampleEmit (fun _ _ => []) (fun _ _ => ([], 0))
            (fun _ _ _ => []) (initialState exampleInfo) exampleInfo
            exampleRawExt 0 true)
          exampleInfo exampleRawExt 0 true).sampled
        = (initInputParams exampleEmit (fun _ _ => []) (fun _ _ => ([], 0))
            (fun _ _ _ => []) (initialState exampleInfo) exampleInfo
            exampleRawExt 0 true).sampled
      ∧ (initInputParams exampleEmit (fun _ _ => []) (fun _ _ => ([], 0))
            (fun _ _ _ => [])
            (initInputParams exampleEmit (fun _ _ => []) (fun _ _ => ([], 0))
              (fun _ _ _ => []) (initialState exampleInfo) exampleInfo
              exampleRawExt 0 true)
            exampleInfo exampleRawExt 0 true).mostProbableString
          = (initInputParams exampleEmit (fun _ _ => []) (fun _ _ => ([], 0))
              (fun _ _ _ => []) (initialState exampleInfo) exampleInfo
              exampleRawExt 0 true).mostProbableString
      ∧ (initInputParams exampleEmit (fun _ _ => []) (fun _ _ => ([], 0))
            (fun _ _ _ => [])
            (initInputParams exampleEmit (fun _ _ => []) (fun _ _ => ([], 0))
              (fun _ _ _ => []) (initialState exampleInfo) exampleInfo
              exampleRawExt 0 true)
            exampleInfo exampleRawExt 0
            true).mostProbableStringProbability
          = (initInputParams exampleEmit (fun _ _ => []) (fun _ _ => ([], 0))
              (fun _ _ _ => []) (initialState exampleInfo) exampleInfo
              exampleRawExt 0 true).mostProbableStringProbability :=
  initInputParams_second_call_reproduces exampleEmit (fun _ _ => [])
    (fun _ _ => ([], 0)) (fun _ _ _ => []) (initialState exampleInfo)
    exampleInfo exampleRawExt 0 true (by decide)

theorem initInputParams_empty_input_witness :
    (initInputParams (fun _ _ => []) (fun _ _ => []) (fun _ _ => ([], 0))
        (fun _ _ _ => []) (initialState exampleInfo) exampleInfo ⟨[], [], []⟩
        0 true).sampled = []
      ∧ getMostProbableString
          (initInputParams (fun _ _ => []) (fun _ _ => [])
            (fun _ _ => ([], 0)) (fun _ _ _ => []) (initialState exampleInfo)
            exampleInfo ⟨[], [], []⟩ 0 true) = ([], 0) :=
  initInputParams_empty_input (fun _ _ => []) (fun _ _ => [])
    (fun _ _ => ([], 0)) (fun _ _ _ => []) exampleInfo ⟨[], [], []⟩ 0 true rfl
    (fun _ _ => Nat.zero_le _)

end LatinIME
